import Mathlib

/-!
# Verification of the GPG secrets-engine Encrypt handler

A shallow embedding of `gpg/path_encrypt.go` (`pathEncryptWrite` and the
field schema of `pathEncrypt`) together with models of its collaborators:

* the host framework's field defaults (`FieldSchema.Default`) are embedded in
  the `get*` accessors over `RawFields` (absent fields yield the Go zero value
  `""`, except `algorithm`, defaulting to `"sha2-256"`, and `format`,
  defaulting to `"base64"`);
* `encoding/base64` (`StdEncoding`) and `openpgp/armor` (including the CRC-24
  checksum and the 64-column line breaker) are embedded concretely, byte for
  byte, as executable functions over `List Nat` bytes and `List Char` text;
* the external OpenPGP library calls (`openpgp.ReadArmoredKeyRing`,
  `openpgp.Encrypt`, writer `Write`/`Close` results) and the repository code
  that is outside this excerpt (`b.key`, `b.entity`, the Decrypt handler) are
  modelled as explicit collaborator behaviors or spec-modelled functions.

Effects are made observable through an event trace (`Ev`): storage reads,
recipient-keyring parsing, the `openpgp.Encrypt` call with its recipient
list and signer, the plaintext write, the two `Close` calls and the final
buffer read. The Go result pair `(*logical.Response, error)` is embedded as
`GoResult`, with a dedicated constructor for a runtime panic, which Go's
`el[0]` indexing can produce.
-/

namespace VaultGpg

/-- An OpenPGP entity (key pair), reduced to the identity of its key, which is
all the spec-modelled cryptographic operations depend on. -/
structure Entity where
  keyId : Nat
deriving DecidableEq

/-- A stored key record, as held by the host's storage backend. -/
structure KeyEntry where
  serializedKey : String
deriving DecidableEq

/-- The host's storage view: path-indexed key records. -/
abbrev Storage := List (String × KeyEntry)

/-- Read a record at a path, as the storage collaborator's get would. -/
def storageGetFn (st : Storage) (path : String) : Option KeyEntry :=
  (st.find? (fun q => q.1 == path)).map Prod.snd

/-- The raw request fields as the caller supplied them (`none` = absent);
the host's field-schema layer turns these into the values `data.Get` sees. -/
structure RawFields where
  name : Option String
  plaintext : Option String
  urlalgorithm : Option String
  algorithm : Option String
  format : Option String
  recipient_key : Option String
deriving DecidableEq

/-- Embeds Go `data.Get("name").(string)`: no schema default, zero value. -/
def getName (d : RawFields) : String := d.name.getD ""

/-- Embeds Go `data.Get("plaintext").(string)`. -/
def getPlaintext (d : RawFields) : String := d.plaintext.getD ""

/-- Embeds Go `data.Get("urlalgorithm").(string)`: optional URL parameter. -/
def getUrlalgorithm (d : RawFields) : String := d.urlalgorithm.getD ""

/-- Embeds Go `data.Get("algorithm").(string)` with schema default
`"sha2-256"` (path_encrypt.go line 37). -/
def getAlgorithm (d : RawFields) : String := d.algorithm.getD "sha2-256"

/-- Embeds Go `data.Get("format").(string)` with schema default `"base64"`
(path_encrypt.go line 49). -/
def getFormat (d : RawFields) : String := d.format.getD "base64"

/-- Embeds Go `data.Get("recipient_key").(string)`. -/
def getRecipientKey (d : RawFields) : String := d.recipient_key.getD ""

/-- Embeds path_encrypt.go lines 76-79: the URL algorithm wins when
non-empty, otherwise the body algorithm (with its schema default). -/
def resolveAlgorithm (d : RawFields) : String :=
  if getUrlalgorithm d = "" then getAlgorithm d else getUrlalgorithm d

/-- The hash algorithms `config.DefaultHash` can be set to (lines 80-91). -/
inductive CryptoHash where
  | SHA224
  | SHA256
  | SHA384
  | SHA512
deriving DecidableEq

/-- The numeric value of the Go `crypto.Hash` constant, used as one byte of
the spec-modelled message serialization. -/
def hashCode : CryptoHash → Nat
  | .SHA224 => 4
  | .SHA256 => 5
  | .SHA384 => 6
  | .SHA512 => 7

/-- Embeds the `switch algorithm` of lines 80-91 as a partial map: `none`
is the `default:` branch returning the unsupported-algorithm response. -/
def hashOfAlgorithm : String → Option CryptoHash
  | "sha2-224" => some .SHA224
  | "sha2-256" => some .SHA256
  | "sha2-384" => some .SHA384
  | "sha2-512" => some .SHA512
  | _ => none

/-! ## base64 (Go `encoding/base64` StdEncoding) -/

/-- The standard base64 alphabet, by sextet value (Go `encodeStd`). -/
def b64Char (n : Nat) : Char :=
  if n < 26 then Char.ofNat (65 + n)
  else if n < 52 then Char.ofNat (97 + (n - 26))
  else if n < 62 then Char.ofNat (48 + (n - 52))
  else if n = 62 then '+'
  else '/'

/-- The decode table: the sextet value of an alphabet character, `none` for
characters outside the alphabet. -/
def b64Val (c : Char) : Option Nat :=
  if 65 ≤ c.toNat ∧ c.toNat ≤ 90 then some (c.toNat - 65)
  else if 97 ≤ c.toNat ∧ c.toNat ≤ 122 then some (c.toNat - 97 + 26)
  else if 48 ≤ c.toNat ∧ c.toNat ≤ 57 then some (c.toNat - 48 + 52)
  else if c = '+' then some 62
  else if c = '/' then some 63
  else none

/-- Go `base64.StdEncoding` encoding of a byte list, with `=` padding. -/
def b64EncodeList : List Nat → List Char
  | [] => []
  | [a] => [b64Char (a / 4), b64Char (a % 4 * 16), '=', '=']
  | [a, b] => [b64Char (a / 4), b64Char (a % 4 * 16 + b / 16), b64Char (b % 16 * 4), '=']
  | a :: b :: c :: rest =>
    b64Char (a / 4) :: b64Char (a % 4 * 16 + b / 16) ::
      b64Char (b % 16 * 4 + c / 64) :: b64Char (c % 64) :: b64EncodeList rest

/-- Go `base64.StdEncoding` decoding over newline-free text: 4-character
groups, `=` padding only at the end, non-alphabet characters rejected
(`CorruptInputError`), trailing padding bits ignored (non-strict mode). -/
def b64DecodeChunks : List Char → Option (List Nat)
  | [] => some []
  | a :: b :: c :: d :: rest =>
    match b64Val a, b64Val b with
    | some va, some vb =>
      if c = '=' then
        if d = '=' ∧ rest = [] then some [va * 4 + vb / 16] else none
      else
        match b64Val c with
        | some vc =>
          if d = '=' then
            if rest = [] then some [va * 4 + vb / 16, vb % 16 * 16 + vc / 4] else none
          else
            match b64Val d with
            | some vd =>
              match b64DecodeChunks rest with
              | some tail =>
                some ((va * 4 + vb / 16) :: (vb % 16 * 16 + vc / 4) :: (vc % 4 * 64 + vd) :: tail)
              | none => none
            | none => none
        | none => none
    | _, _ => none
  | _ => none

/-- Go `base64.StdEncoding.DecodeString`: `\r` and `\n` are skipped, then
the group decoder runs (line 69 of path_encrypt.go uses this on the
plaintext field). -/
def base64DecodeString (s : String) : Option (List Nat) :=
  b64DecodeChunks (s.toList.filter (fun c => !(c == '\n' || c == '\r')))

/-! ## OpenPGP ASCII armor (Go `openpgp/armor`) -/

/-- One CRC-24 shift step of Go's `crc24` (armor.go): shift left in a
`uint32`, conditionally xor the polynomial `0x1864cfb`. -/
def crc24Bit (crc : Nat) : Nat :=
  let crc := crc * 2 % 2 ^ 32
  if crc &&& 0x1000000 ≠ 0 then crc ^^^ 0x1864cfb else crc

/-- One byte of the CRC-24 loop: xor the byte into bits 16-23, then eight
shift steps. -/
def crc24Byte (crc b : Nat) : Nat :=
  (List.range 8).foldl (fun c _ => crc24Bit c) ((crc ^^^ b <<< 16) % 2 ^ 32)

/-- Go `crc24(crc24Init, d)` with `crc24Init = 0xb704ce`. -/
def crc24 (bs : List Nat) : Nat := bs.foldl crc24Byte 0xb704ce

/-- The three checksum bytes the armor encoder's `Close` emits
(`byte(crc>>16)`, `byte(crc>>8)`, `byte(crc)`). -/
def crc24Bytes (bs : List Nat) : List Nat :=
  [crc24 bs >>> 16 % 256, crc24 bs >>> 8 % 256, crc24 bs % 256]

/-- Structural worker for the armor line breaker: `fuel` bounds the number
of line splits (any `fuel ≥ cs.length` gives the untruncated behavior). -/
def lineBreakAux : Nat → List Char → List Char
  | 0, cs => cs
  | fuel + 1, cs =>
    if cs.length ≤ 64 then cs
    else cs.take 64 ++ '\n' :: lineBreakAux fuel (cs.drop 64)

/-- Go armor's `lineBreaker` (line length 64): base64 text split into
64-column lines joined by `\n`, with no trailing newline (the footer supplies
it). -/
def lineBreak64 (cs : List Char) : List Char := lineBreakAux cs.length cs

/-- What `armor.Encode(out, "PGP MESSAGE", nil)` writes before any data:
the begin line and the blank line ending the (empty) header block. -/
def armorHeaderChars : List Char := "-----BEGIN PGP MESSAGE-----\n\n".toList

/-- What the armor encoder's `Close` writes after the checksum:
newline, end line, final newline. -/
def armorFooterChars : List Char := "\n-----END PGP MESSAGE-----\n".toList

/-- The full ASCII-armored framing of a byte payload, exactly as the chain
`armor.Encode` / `lineBreaker` / `Close` produces it for block type
`PGP MESSAGE` with no headers. -/
def armorEncodeChars (d : List Nat) : List Char :=
  armorHeaderChars ++
    (lineBreak64 (b64EncodeList d) ++ '\n' :: '=' :: b64EncodeList (crc24Bytes d)) ++
    armorFooterChars

/-- Remove a leading literal from a character list, or fail. -/
def stripPfx (p cs : List Char) : Option (List Char) :=
  if cs.take p.length = p then some (cs.drop p.length) else none

/-- Remove a trailing literal from a character list, or fail. -/
def stripSfx (s cs : List Char) : Option (List Char) :=
  (stripPfx s.reverse cs.reverse).map List.reverse

/-- Modelled from the spec: the armor decoder used by the Decrypt operation
("decoding it with an armor decoder"): strip the `PGP MESSAGE` frame,
base64-decode the body ignoring line breaks, and verify the CRC-24
checksum. -/
def armorDecode (cs : List Char) : Option (List Nat) :=
  match stripPfx armorHeaderChars cs with
  | none => none
  | some m1 =>
    match stripSfx armorFooterChars m1 with
    | none => none
    | some mid =>
      match (mid.reverse.take 4).reverse, mid.reverse.drop 4 with
      | crcChars, '=' :: '\n' :: bodyRev =>
        match b64DecodeChunks (bodyRev.reverse.filter (fun c => !(c == '\n' || c == '\r'))) with
        | some dat =>
          match b64DecodeChunks crcChars with
          | some cb => if cb = crc24Bytes dat then some dat else none
          | none => none
        | none => none
      | _, _ => none

/-! ## Spec-modelled OpenPGP cryptography -/

/-- Big-endian byte serialization of a natural number in `k` bytes. -/
def natToBytesBE : Nat → Nat → List Nat
  | 0, _ => []
  | k + 1, x => natToBytesBE k (x / 256) ++ [x % 256]

/-- Modelled from the spec: the byte stream `openpgp.Encrypt` emits —
"plaintext encrypted to recipient, signed by sender entity, using the
configured hash algorithm". The message determines, and is determined by,
the recipient key, the signer key, the hash, and the plaintext. -/
def pgpEncryptBytes (recipient signer : Entity) (hash : CryptoHash) (pt : List Nat) : List Nat :=
  natToBytesBE 8 recipient.keyId ++ natToBytesBE 8 signer.keyId ++ [hashCode hash] ++ pt

/-- Modelled from the spec: the library decrypt step of the Decrypt
operation — succeeds exactly when the supplied private key matches the
recipient the message was encrypted to, and then yields the plaintext. -/
def pgpDecryptBytes (privKey : Entity) (msg : List Nat) : Option (List Nat) :=
  if msg.take 8 = natToBytesBE 8 privKey.keyId then some (msg.drop 17) else none

/-- Modelled from the spec: the Decrypt operation, `decrypt/<name>` — decode
the ciphertext per the request format ("inverse of Encrypt"), then run the
library decrypt with the resolved private-key entity. -/
def decryptOperation (privKey : Entity) (format : String) (ciphertext : String) :
    Option (List Nat) :=
  (if format = "ascii-armor" then armorDecode ciphertext.toList
   else base64DecodeString ciphertext).bind (pgpDecryptBytes privKey)

/-! ## The handler embedding -/

/-- Behaviors of the external collaborators a single `pathEncryptWrite` call
consults. `readArmoredKeyRing` is the outcome of `openpgp.ReadArmoredKeyRing`
on the recipient text; `deriveEntity` is modelled from the spec
(`EntityDeriver.derive`, fail-closed, from `b.entity` which is outside this
excerpt); `storageErr` is a failure of the storage read inside `b.key`
(modelled from the spec: `b.key` proxies a single storage get of
`keys/<name>`); the remaining fields are the error results of
`openpgp.Encrypt`, `w.Write`, `w.Close` and `ciphertextEncoder.Close`. -/
structure Collab where
  readArmoredKeyRing : String → Except String (List Entity)
  deriveEntity : KeyEntry → Except String Entity
  storageErr : Option String
  encryptErr : Option String
  writeErr : Option String
  closeWErr : Option String
  closeEncErr : Option String

/-- Observable events of one handler execution, in order. -/
inductive Ev where
  | storageGet (path : String)
  | storagePut (path : String) (entry : KeyEntry)
  | storageDelete (path : String)
  | parseRecipient
  | encryptCalled (recipients : List Entity) (signer : Entity)
  | writePlaintext
  | closeCryptoWriter
  | closeEncoder
  | readBuffer
deriving DecidableEq

/-- Whether an event touches the storage backend. -/
def isStorageB : Ev → Bool
  | .storageGet _ => true
  | .storagePut _ _ => true
  | .storageDelete _ => true
  | _ => false

/-- The effect of one event on the stored records (reads change nothing). -/
def applyEv (st : Storage) : Ev → Storage
  | .storagePut p e => (p, e) :: st.filter (fun q => !(q.1 == p))
  | .storageDelete p => st.filter (fun q => !(q.1 == p))
  | _ => st

/-- The stored records after a trace of events. -/
def applyEvList (evs : List Ev) (st : Storage) : Storage := evs.foldl applyEv st

/-- The Go return pair `(*logical.Response, error)` of the handler, plus the
runtime-panic outcome Go indexing can produce. `errResp msg invalidReq`
is `logical.ErrorResponse(msg)` paired with `logical.ErrInvalidRequest`
when `invalidReq` is true and `nil` otherwise; `internalErr` is the bare
`(nil, err)` return. -/
inductive GoResult where
  | respData (ciphertext : String)
  | errResp (msg : String) (invalidReq : Bool)
  | internalErr (msg : String)
  | panicked (msg : String)
deriving DecidableEq

/-- The embedding of `pathEncryptWrite` (path_encrypt.go lines 67-161),
statement by statement: plaintext base64 decode; algorithm resolution and
the hash switch; the format switch; the empty-recipient check; the armored
keyring parse with its error return; the unguarded `el[0]` (a panic when
the parsed entity list is empty); the dead second `err` check (`err` is
known `nil` there, embedded as a match on the literal `none`); the `b.key`
storage read with its nil-entry check; `b.entity`; encoder construction
(`armor.Encode` on a `bytes.Buffer` cannot fail, and `base64.NewEncoder`
returns no error); `openpgp.Encrypt`, the write, the two closes, and the
final buffer read into the response. -/
def pathEncryptWrite (lib : Collab) (data : RawFields) (st : Storage) :
    GoResult × List Ev :=
  match base64DecodeString (getPlaintext data) with
  | none => (.errResp "unable to decode plaintext as base64" true, [])
  | some plaintext =>
    match hashOfAlgorithm (resolveAlgorithm data) with
    | none => (.errResp ("unsupported algorithm " ++ resolveAlgorithm data) false, [])
    | some hash =>
      if getFormat data = "base64" ∨ getFormat data = "ascii-armor" then
        if getRecipientKey data = "" then
          (.errResp "recipient_key not exist" true, [])
        else
          match lib.readArmoredKeyRing (getRecipientKey data) with
          | .error e => (.errResp e true, [.parseRecipient])
          | .ok el =>
            match el with
            | [] =>
              (.panicked "runtime error: index out of range [0] with length 0",
                [.parseRecipient])
            | e0 :: _ =>
              match (none : Option String) with
              | some e => (.internalErr e, [.parseRecipient])
              | none =>
                match lib.storageErr with
                | some e =>
                  (.internalErr e, [.parseRecipient, .storageGet ("keys/" ++ getName data)])
                | none =>
                  match storageGetFn st ("keys/" ++ getName data) with
                  | none =>
                    (.errResp "key not found" true,
                      [.parseRecipient, .storageGet ("keys/" ++ getName data)])
                  | some entry =>
                    match lib.deriveEntity entry with
                    | .error e =>
                      (.internalErr e,
                        [.parseRecipient, .storageGet ("keys/" ++ getName data)])
                    | .ok entity =>
                      match lib.encryptErr with
                      | some e =>
                        (.internalErr e,
                          [.parseRecipient, .storageGet ("keys/" ++ getName data),
                            .encryptCalled [e0] entity])
                      | none =>
                        match lib.writeErr with
                        | some e =>
                          (.internalErr e,
                            [.parseRecipient, .storageGet ("keys/" ++ getName data),
                              .encryptCalled [e0] entity, .writePlaintext])
                        | none =>
                          match lib.closeWErr with
                          | some e =>
                            (.internalErr e,
                              [.parseRecipient, .storageGet ("keys/" ++ getName data),
                                .encryptCalled [e0] entity, .writePlaintext,
                                .closeCryptoWriter])
                          | none =>
                            match lib.closeEncErr with
                            | some e =>
                              (.internalErr e,
                                [.parseRecipient, .storageGet ("keys/" ++ getName data),
                                  .encryptCalled [e0] entity, .writePlaintext,
                                  .closeCryptoWriter, .closeEncoder])
                            | none =>
                              (.respData (String.mk
                                  (if getFormat data = "ascii-armor" then
                                    armorEncodeChars
                                      (pgpEncryptBytes e0 entity hash plaintext)
                                  else
                                    b64EncodeList
                                      (pgpEncryptBytes e0 entity hash plaintext))),
                                [.parseRecipient, .storageGet ("keys/" ++ getName data),
                                  .encryptCalled [e0] entity, .writePlaintext,
                                  .closeCryptoWriter, .closeEncoder, .readBuffer])
      else
        (.errResp ("unsupported encoding format " ++ getFormat data) false, [])

/-- The same function with the dead `if err != nil` of lines 110-112
removed: the refinement target for the unreachable-check claim. -/
def pathEncryptWriteNoDeadCheck (lib : Collab) (data : RawFields) (st : Storage) :
    GoResult × List Ev :=
  match base64DecodeString (getPlaintext data) with
  | none => (.errResp "unable to decode plaintext as base64" true, [])
  | some plaintext =>
    match hashOfAlgorithm (resolveAlgorithm data) with
    | none => (.errResp ("unsupported algorithm " ++ resolveAlgorithm data) false, [])
    | some hash =>
      if getFormat data = "base64" ∨ getFormat data = "ascii-armor" then
        if getRecipientKey data = "" then
          (.errResp "recipient_key not exist" true, [])
        else
          match lib.readArmoredKeyRing (getRecipientKey data) with
          | .error e => (.errResp e true, [.parseRecipient])
          | .ok el =>
            match el with
            | [] =>
              (.panicked "runtime error: index out of range [0] with length 0",
                [.parseRecipient])
            | e0 :: _ =>
              match lib.storageErr with
              | some e =>
                (.internalErr e, [.parseRecipient, .storageGet ("keys/" ++ getName data)])
              | none =>
                match storageGetFn st ("keys/" ++ getName data) with
                | none =>
                  (.errResp "key not found" true,
                    [.parseRecipient, .storageGet ("keys/" ++ getName data)])
                | some entry =>
                  match lib.deriveEntity entry with
                  | .error e =>
                    (.internalErr e,
                      [.parseRecipient, .storageGet ("keys/" ++ getName data)])
                  | .ok entity =>
                    match lib.encryptErr with
                    | some e =>
                      (.internalErr e,
                        [.parseRecipient, .storageGet ("keys/" ++ getName data),
                          .encryptCalled [e0] entity])
                    | none =>
                      match lib.writeErr with
                      | some e =>
                        (.internalErr e,
                          [.parseRecipient, .storageGet ("keys/" ++ getName data),
                            .encryptCalled [e0] entity, .writePlaintext])
                      | none =>
                        match lib.closeWErr with
                        | some e =>
                          (.internalErr e,
                            [.parseRecipient, .storageGet ("keys/" ++ getName data),
                              .encryptCalled [e0] entity, .writePlaintext,
                              .closeCryptoWriter])
                        | none =>
                          match lib.closeEncErr with
                          | some e =>
                            (.internalErr e,
                              [.parseRecipient, .storageGet ("keys/" ++ getName data),
                                .encryptCalled [e0] entity, .writePlaintext,
                                .closeCryptoWriter, .closeEncoder])
                          | none =>
                            (.respData (String.mk
                                (if getFormat data = "ascii-armor" then
                                  armorEncodeChars
                                    (pgpEncryptBytes e0 entity hash plaintext)
                                else
                                  b64EncodeList
                                    (pgpEncryptBytes e0 entity hash plaintext))),
                              [.parseRecipient, .storageGet ("keys/" ++ getName data),
                                .encryptCalled [e0] entity, .writePlaintext,
                                .closeCryptoWriter, .closeEncoder, .readBuffer])
      else
        (.errResp ("unsupported encoding format " ++ getFormat data) false, [])

/-! ## Concrete collaborators and inputs for witnesses -/

/-- A fault-free collaborator set whose keyring parse yields exactly the
recipient `R` and whose entity derivation yields the signer `S`. -/
def happyLib (R S : Entity) : Collab where
  readArmoredKeyRing := fun _ => .ok [R]
  deriveEntity := fun _ => .ok S
  storageErr := none
  encryptErr := none
  writeErr := none
  closeWErr := none
  closeEncErr := none

/-- A storage state holding one key record under `keys/k`. -/
def stOne : Storage := [("keys/k", ⟨"KEYMATERIAL"⟩)]

/-- A fully valid request for key `k` with default algorithm and an
ascii-armor format, plaintext `hi` (base64 `aGk=`). -/
def dataArmor : RawFields :=
  ⟨some "k", some "aGk=", none, none, some "ascii-armor", some "RECIPIENT"⟩

/-- A fully valid request for key `k` in base64 format. -/
def dataB64 : RawFields :=
  ⟨some "k", some "aGk=", none, none, some "base64", some "RECIPIENT"⟩

/-- A request whose plaintext is not base64 and whose algorithm is
unsupported: exercises the validation order. -/
def dataBadPlaintextBadAlg : RawFields :=
  ⟨some "k", some "%", none, some "md5", some "base64", some "RECIPIENT"⟩

/-- A request with an unsupported algorithm and an empty recipient key. -/
def dataBadAlgNoRecipient : RawFields :=
  ⟨some "k", some "aGk=", none, some "md5", some "base64", none⟩

/-- A valid request with an unsupported algorithm. -/
def dataBadAlg : RawFields :=
  ⟨some "k", some "aGk=", none, some "md5", some "base64", some "RECIPIENT"⟩

/-- A valid request with an empty recipient key. -/
def dataNoRecipient : RawFields :=
  ⟨some "k", some "aGk=", none, none, some "base64", none⟩

/-- A collaborator set whose keyring parse succeeds with zero entities, the
outcome `openpgp.ReadArmoredKeyRing` has on an armored key block whose body
holds no key packet (`ReadKeyRing` then returns an empty list and a nil
error, its `lastUnsupportedError` never having been set). -/
def emptyKeyringLib : Collab :=
  { happyLib ⟨1⟩ ⟨2⟩ with readArmoredKeyRing := fun _ => .ok [] }

/-- A fault-free collaborator set except that the final encoder `Close`
fails. -/
def closeEncFailsLib : Collab :=
  { happyLib ⟨1⟩ ⟨2⟩ with closeEncErr := some "flush failed" }

/-- The armored ciphertext of the `dataArmor` request under `happyLib`. -/
def armorCiphertext : String :=
  String.mk (armorEncodeChars (pgpEncryptBytes ⟨1⟩ ⟨2⟩ .SHA256 [104, 105]))

/-! ## Codec lemmas -/

theorem b64Val_b64Char : ∀ n, n < 64 → b64Val (b64Char n) = some n := by decide

theorem b64Char_ne_small :
    ∀ n, n < 64 → b64Char n ≠ '=' ∧ b64Char n ≠ '\n' ∧ b64Char n ≠ '\r' := by decide

theorem b64Char_ne (n : Nat) :
    b64Char n ≠ '=' ∧ b64Char n ≠ '\n' ∧ b64Char n ≠ '\r' := by
  by_cases h : n < 64
  · exact b64Char_ne_small n h
  · unfold b64Char
    rw [if_neg (by omega), if_neg (by omega), if_neg (by omega), if_neg (by omega)]
    decide

theorem b64Char_ne_pad (n : Nat) : ¬ b64Char n = '=' := (b64Char_ne n).1

theorem b64Char_notNl (n : Nat) : (!(b64Char n == '\n' || b64Char n == '\r')) = true := by
  have h := b64Char_ne n
  simp [h.2.1, h.2.2]

theorem b64EncodeList_no_newline :
    ∀ d : List Nat, ∀ c ∈ b64EncodeList d, (!(c == '\n' || c == '\r')) = true
  | [] => by simp [b64EncodeList]
  | [a] => by
    intro c hc
    simp only [b64EncodeList, List.mem_cons, List.not_mem_nil, or_false] at hc
    rcases hc with rfl | rfl | rfl | rfl <;> first | exact b64Char_notNl _ | decide
  | [a, b] => by
    intro c hc
    simp only [b64EncodeList, List.mem_cons, List.not_mem_nil, or_false] at hc
    rcases hc with rfl | rfl | rfl | rfl <;> first | exact b64Char_notNl _ | decide
  | a :: b :: x :: rest => by
    intro c hc
    simp only [b64EncodeList, List.mem_cons] at hc
    rcases hc with rfl | rfl | rfl | rfl | hc
    · exact b64Char_notNl _
    · exact b64Char_notNl _
    · exact b64Char_notNl _
    · exact b64Char_notNl _
    · exact b64EncodeList_no_newline rest c hc

theorem b64_decode_encode :
    ∀ d : List Nat, (∀ x ∈ d, x < 256) → b64DecodeChunks (b64EncodeList d) = some d
  | [], _ => rfl
  | [a], h => by
    have ha : a < 256 := h a (by simp)
    simp (disch := omega) only [b64EncodeList, b64DecodeChunks, b64Val_b64Char]
    simp
    omega
  | [a, b], h => by
    have ha : a < 256 := h a (by simp)
    have hb : b < 256 := h b (by simp)
    simp (disch := omega) only [b64EncodeList, b64DecodeChunks, b64Val_b64Char,
      b64Char_ne_pad]
    simp
    omega
  | a :: b :: x :: rest, h => by
    have ha : a < 256 := h a (by simp)
    have hb : b < 256 := h b (by simp)
    have hx : x < 256 := h x (by simp)
    have ih := b64_decode_encode rest (fun y hy => h y (by simp [hy]))
    simp (disch := omega) only [b64EncodeList, b64DecodeChunks, b64Val_b64Char,
      b64Char_ne_pad, ih]
    simp
    omega

theorem base64DecodeString_encode (P : List Nat) (hP : ∀ x ∈ P, x < 256) :
    base64DecodeString (String.mk (b64EncodeList P)) = some P := by
  unfold base64DecodeString
  rw [show (String.mk (b64EncodeList P)).toList = b64EncodeList P from rfl]
  rw [List.filter_eq_self.mpr (b64EncodeList_no_newline P)]
  exact b64_decode_encode P hP

theorem filter_lineBreakAux :
    ∀ (fuel : Nat) (cs : List Char),
      (∀ c ∈ cs, (!(c == '\n' || c == '\r')) = true) →
      (lineBreakAux fuel cs).filter (fun c => !(c == '\n' || c == '\r')) = cs
  | 0, cs, h => List.filter_eq_self.mpr h
  | fuel + 1, cs, h => by
    rw [lineBreakAux]
    split
    · exact List.filter_eq_self.mpr h
    · rw [List.filter_append, List.filter_cons]
      have h1 : (cs.take 64).filter (fun c => !(c == '\n' || c == '\r')) = cs.take 64 :=
        List.filter_eq_self.mpr (fun c hc => h c (List.mem_of_mem_take hc))
      have h2 := filter_lineBreakAux fuel (cs.drop 64)
        (fun c hc => h c (List.mem_of_mem_drop hc))
      simp only [h1, h2]
      simp [List.take_append_drop]

theorem filter_lineBreak64 (cs : List Char)
    (h : ∀ c ∈ cs, (!(c == '\n' || c == '\r')) = true) :
    (lineBreak64 cs).filter (fun c => !(c == '\n' || c == '\r')) = cs :=
  filter_lineBreakAux cs.length cs h

theorem b64EncodeList_crc_length (d : List Nat) :
    (b64EncodeList (crc24Bytes d)).length = 4 := by
  simp [crc24Bytes, b64EncodeList]

theorem crc24Bytes_lt (d : List Nat) : ∀ x ∈ crc24Bytes d, x < 256 := by
  intro x hx
  simp only [crc24Bytes, List.mem_cons, List.not_mem_nil, or_false] at hx
  rcases hx with rfl | rfl | rfl <;> exact Nat.mod_lt _ (by norm_num)

theorem stripPfx_append (p r : List Char) : stripPfx p (p ++ r) = some r := by
  simp [stripPfx, List.take_left, List.drop_left]

theorem stripSfx_append (s r : List Char) : stripSfx s (r ++ s) = some r := by
  simp [stripSfx, List.reverse_append, stripPfx_append]

theorem armor_decode_encode (d : List Nat) (h : ∀ x ∈ d, x < 256) :
    armorDecode (armorEncodeChars d) = some d := by
  unfold armorEncodeChars armorDecode
  rw [List.append_assoc, stripPfx_append]
  dsimp only
  rw [stripSfx_append]
  dsimp only
  have hrev : (lineBreak64 (b64EncodeList d) ++
      '\n' :: '=' :: b64EncodeList (crc24Bytes d)).reverse
      = (b64EncodeList (crc24Bytes d)).reverse ++
        '=' :: '\n' :: (lineBreak64 (b64EncodeList d)).reverse := by
    simp
  rw [hrev]
  rw [List.take_left' (by simp [b64EncodeList_crc_length]),
    List.drop_left' (by simp [b64EncodeList_crc_length])]
  simp only [List.reverse_reverse]
  rw [filter_lineBreak64 _ (b64EncodeList_no_newline d)]
  rw [b64_decode_encode d h, b64_decode_encode (crc24Bytes d) (crc24Bytes_lt d)]
  simp

/-! ## Spec-modelled cryptography lemmas -/

theorem natToBytesBE_length (k : Nat) : ∀ x, (natToBytesBE k x).length = k := by
  induction k with
  | zero => intro x; rfl
  | succ k ih => intro x; simp [natToBytesBE, ih]

theorem natToBytesBE_lt (k : Nat) : ∀ x, ∀ b ∈ natToBytesBE k x, b < 256 := by
  induction k with
  | zero => simp [natToBytesBE]
  | succ k ih =>
    intro x b hb
    simp only [natToBytesBE, List.mem_append, List.mem_cons, List.not_mem_nil,
      or_false] at hb
    rcases hb with hb | rfl
    · exact ih _ b hb
    · omega

theorem hashCode_lt (hc : CryptoHash) : hashCode hc < 256 := by
  cases hc <;> decide

theorem pgpEncryptBytes_lt (R S : Entity) (hc : CryptoHash) (P : List Nat)
    (hP : ∀ b ∈ P, b < 256) : ∀ b ∈ pgpEncryptBytes R S hc P, b < 256 := by
  intro b hb
  simp only [pgpEncryptBytes, List.mem_append, List.mem_cons, List.not_mem_nil,
    or_false] at hb
  rcases hb with ((hb | hb) | rfl) | hb
  · exact natToBytesBE_lt 8 _ b hb
  · exact natToBytesBE_lt 8 _ b hb
  · exact hashCode_lt hc
  · exact hP b hb

theorem pgp_roundtrip (R S : Entity) (hc : CryptoHash) (P : List Nat) :
    pgpDecryptBytes R (pgpEncryptBytes R S hc P) = some P := by
  unfold pgpDecryptBytes pgpEncryptBytes
  have htake : (natToBytesBE 8 R.keyId ++ natToBytesBE 8 S.keyId ++
      [hashCode hc] ++ P).take 8 = natToBytesBE 8 R.keyId := by
    simp only [List.append_assoc]
    exact List.take_left' (natToBytesBE_length 8 _)
  have hdrop : (natToBytesBE 8 R.keyId ++ natToBytesBE 8 S.keyId ++
      [hashCode hc] ++ P).drop 17 = P := by
    rw [show natToBytesBE 8 R.keyId ++ natToBytesBE 8 S.keyId ++ [hashCode hc] ++ P
        = (natToBytesBE 8 R.keyId ++ natToBytesBE 8 S.keyId ++ [hashCode hc]) ++ P
      from by simp [List.append_assoc]]
    exact List.drop_left' (by simp [natToBytesBE_length])
  rw [htake, if_pos rfl, hdrop]

theorem armorEncodeChars_framing (d : List Nat) :
    (∃ t, armorEncodeChars d = "-----BEGIN PGP MESSAGE-----".toList ++ t)
    ∧ (∃ t, armorEncodeChars d = t ++ "-----END PGP MESSAGE-----\n".toList) := by
  constructor
  · refine ⟨'\n' :: '\n' :: ((lineBreak64 (b64EncodeList d) ++
      '\n' :: '=' :: b64EncodeList (crc24Bytes d)) ++ armorFooterChars), ?_⟩
    rw [armorEncodeChars, show armorHeaderChars
      = "-----BEGIN PGP MESSAGE-----".toList ++ ['\n', '\n'] from by decide]
    simp [List.append_assoc]
  · refine ⟨armorHeaderChars ++ (lineBreak64 (b64EncodeList d) ++
      '\n' :: '=' :: b64EncodeList (crc24Bytes d)) ++ ['\n'], ?_⟩
    rw [armorEncodeChars, show armorFooterChars
      = '\n' :: "-----END PGP MESSAGE-----\n".toList from by decide]
    simp [List.append_assoc]

/-! ## Claim theorems -/

/-- C9: the second `if err != nil` check of path_encrypt.go lines 110-112 is
unreachable: on every execution that reaches it `err` is already known to be
nil (the preceding check returned on any non-nil `err`), so removing the
check leaves `pathEncryptWrite` with identical behavior (result and effect
trace) on every input, storage state, and collaborator behavior. -/
theorem dead_err_check_removal_preserves_behavior (lib : Collab) (data : RawFields)
    (st : Storage) : pathEncryptWrite lib data st = pathEncryptWriteNoDeadCheck lib data st :=
  rfl

/-- C10: on every path, success or error, `pathEncryptWrite` never writes to
or deletes from storage: its storage interaction is empty or a single read
of the named key record at `keys/<name>`, and replaying its effect trace on
any storage state leaves the stored key records unchanged. -/
theorem encrypt_storage_frame (lib : Collab) (data : RawFields) (st : Storage) :
    ((pathEncryptWrite lib data st).2.filter isStorageB = []
      ∨ (pathEncryptWrite lib data st).2.filter isStorageB
          = [Ev.storageGet ("keys/" ++ getName data)])
    ∧ applyEvList (pathEncryptWrite lib data st).2 st = st := by
  unfold pathEncryptWrite
  repeat' split
  all_goals simp [isStorageB, applyEvList, applyEv, List.filter]

/-- C6: algorithm selection on Encrypt — a non-empty `urlalgorithm` takes
precedence over the body `algorithm` field; when `urlalgorithm` is empty the
body field (with its schema default) is used; and when the caller supplies
neither field the effective algorithm is `sha2-256`. -/
theorem algorithm_selection (d : RawFields) :
    (getUrlalgorithm d ≠ "" → resolveAlgorithm d = getUrlalgorithm d)
    ∧ (getUrlalgorithm d = "" → resolveAlgorithm d = getAlgorithm d)
    ∧ (d.urlalgorithm = none → d.algorithm = none → resolveAlgorithm d = "sha2-256") := by
  refine ⟨fun h => ?_, fun h => ?_, fun h1 h2 => ?_⟩
  · rw [resolveAlgorithm, if_neg h]
  · rw [resolveAlgorithm, if_pos h]
  · simp [resolveAlgorithm, getUrlalgorithm, getAlgorithm, h1, h2]

/-- C6 witness: with no algorithm fields supplied at all, the effective
algorithm is `sha2-256`. -/
theorem algorithm_selection_witness :
    resolveAlgorithm ⟨none, none, none, none, none, none⟩ = "sha2-256" :=
  (algorithm_selection ⟨none, none, none, none, none, none⟩).2.2 rfl rfl

/-- C1: evaluation at the failing input — when the armored recipient keyring
parses successfully to an empty entity list (the outcome
`openpgp.ReadArmoredKeyRing` has on an armored public-key block whose body
contains no key packet), the unguarded `el[0]` of line 109 panics with an
index-out-of-range runtime error instead of returning the user-correctable
`InvalidRecipientKey` error response the spec requires. -/
theorem empty_keyring_unguarded_index_panics :
    pathEncryptWrite emptyKeyringLib dataB64 stOne
      = (.panicked "runtime error: index out of range [0] with length 0",
          [Ev.parseRecipient]) := by
  decide

/-- C4 counterexample: a request whose effective algorithm `md5` is outside
the supported set but whose plaintext is not valid base64 is answered with
the invalid-plaintext error, not the UnsupportedAlgorithm response: the
plaintext decode of line 69 runs before the algorithm switch of lines
80-91, so the claim's unconditional quantification over requests fails. -/
theorem unsupported_algorithm_counterexample :
    resolveAlgorithm dataBadPlaintextBadAlg = "md5"
    ∧ hashOfAlgorithm (resolveAlgorithm dataBadPlaintextBadAlg) = none
    ∧ (pathEncryptWrite (happyLib ⟨1⟩ ⟨2⟩) dataBadPlaintextBadAlg stOne).1
        = .errResp "unable to decode plaintext as base64" true
    ∧ GoResult.errResp "unable to decode plaintext as base64" true
        ≠ .errResp ("unsupported algorithm "
            ++ resolveAlgorithm dataBadPlaintextBadAlg) false := by
  refine ⟨rfl, rfl, by decide, by decide⟩

/-- C4 (amended): for every request whose plaintext field decodes as base64
and whose effective algorithm string is outside
{sha2-224, sha2-256, sha2-384, sha2-512}, `pathEncryptWrite` returns the
UnsupportedAlgorithm error response with an empty effect trace — no storage
access and no cryptographic operation — and the stored key records are
unchanged. -/
theorem unsupported_algorithm_rejected (lib : Collab) (data : RawFields) (st : Storage)
    (pt : List Nat) (hpt : base64DecodeString (getPlaintext data) = some pt)
    (ha : hashOfAlgorithm (resolveAlgorithm data) = none) :
    pathEncryptWrite lib data st
        = (.errResp ("unsupported algorithm " ++ resolveAlgorithm data) false, [])
    ∧ applyEvList (pathEncryptWrite lib data st).2 st = st := by
  unfold pathEncryptWrite
  rw [hpt, ha]
  exact ⟨rfl, rfl⟩

/-- C4 witness: a well-formed request asking for algorithm `md5` is rejected
with the UnsupportedAlgorithm response, an empty trace, and unchanged
storage. -/
theorem unsupported_algorithm_rejected_witness :
    pathEncryptWrite (happyLib ⟨1⟩ ⟨2⟩) dataBadAlg stOne
        = (.errResp ("unsupported algorithm " ++ resolveAlgorithm dataBadAlg) false, [])
    ∧ applyEvList (pathEncryptWrite (happyLib ⟨1⟩ ⟨2⟩) dataBadAlg stOne).2 stOne = stOne :=
  unsupported_algorithm_rejected (happyLib ⟨1⟩ ⟨2⟩) dataBadAlg stOne [104, 105]
    (by decide) (by decide)

/-- C7 counterexample: a request with an empty `recipient_key` but an
unsupported algorithm is answered with the UnsupportedAlgorithm response,
not MissingRecipient: the algorithm switch of lines 80-91 runs before the
recipient check of lines 101-104, so the claim's unconditional
quantification over requests with empty `recipient_key` fails. -/
theorem missing_recipient_counterexample :
    getRecipientKey dataBadAlgNoRecipient = ""
    ∧ (pathEncryptWrite (happyLib ⟨1⟩ ⟨2⟩) dataBadAlgNoRecipient stOne).1
        = .errResp "unsupported algorithm md5" false
    ∧ GoResult.errResp "unsupported algorithm md5" false
        ≠ .errResp "recipient_key not exist" true := by
  refine ⟨rfl, by decide, by decide⟩

/-- C7 (amended): for every request whose plaintext decodes as base64, whose
effective algorithm is supported and whose format is valid, an empty
`recipient_key` yields the MissingRecipient user-correctable error
(`logical.ErrInvalidRequest`) with an empty effect trace: no recipient
parsing, no key resolution, and no encryption has run. -/
theorem missing_recipient_before_crypto (lib : Collab) (data : RawFields) (st : Storage)
    (pt : List Nat) (hc : CryptoHash)
    (hpt : base64DecodeString (getPlaintext data) = some pt)
    (ha : hashOfAlgorithm (resolveAlgorithm data) = some hc)
    (hf : getFormat data = "base64" ∨ getFormat data = "ascii-armor")
    (hr : getRecipientKey data = "") :
    pathEncryptWrite lib data st = (.errResp "recipient_key not exist" true, []) := by
  unfold pathEncryptWrite
  rw [hpt, ha]
  dsimp only
  rw [if_pos hf, if_pos hr]

/-- C7 witness: an otherwise valid request with no `recipient_key` is
rejected with the MissingRecipient error and an empty trace. -/
theorem missing_recipient_before_crypto_witness :
    pathEncryptWrite (happyLib ⟨1⟩ ⟨2⟩) dataNoRecipient stOne
      = (.errResp "recipient_key not exist" true, []) :=
  missing_recipient_before_crypto (happyLib ⟨1⟩ ⟨2⟩) dataNoRecipient stOne
    [104, 105] .SHA256 (by decide) (by decide) (Or.inl rfl) rfl

/-- C2: on every successful Encrypt path the cryptographic writer returned
by `openpgp.Encrypt` is closed first and the encoding writer second, both
before the ciphertext buffer is read into the response (the trace of any
success ends `closeCryptoWriter, closeEncoder, readBuffer`); and if either
`Close` returns an error the operation returns failure and no ciphertext
response is produced. -/
theorem encrypt_close_order_and_errors (lib : Collab) (data : RawFields) (st : Storage) :
    (∀ c, (pathEncryptWrite lib data st).1 = .respData c →
        ∃ pre, (pathEncryptWrite lib data st).2
          = pre ++ [Ev.closeCryptoWriter, Ev.closeEncoder, Ev.readBuffer])
    ∧ ((lib.closeWErr ≠ none ∨ lib.closeEncErr ≠ none) →
        ∀ c, (pathEncryptWrite lib data st).1 ≠ .respData c) := by
  unfold pathEncryptWrite
  repeat' split
  all_goals refine ⟨fun c hcl => ?_, fun herr c => ?_⟩
  all_goals try simp_all
  all_goals exact ⟨[Ev.parseRecipient, Ev.storageGet ("keys/" ++ getName data),
    Ev.encryptCalled _ _, Ev.writePlaintext], rfl⟩

/-- C5: whenever the recipient keyring parses to one or more entities,
exactly the first entity is passed to `openpgp.Encrypt` as the sole
recipient (every `encryptCalled` event carries recipient list `[e]`), and
the handler behaves identically to one whose parse yielded only that first
entity — additional keyring entries are accepted but ignored. -/
theorem first_entity_sole_recipient (lib : Collab) (data : RawFields) (st : Storage)
    (e : Entity) (rest : List Entity)
    (h : lib.readArmoredKeyRing (getRecipientKey data) = .ok (e :: rest)) :
    (∀ rs s, Ev.encryptCalled rs s ∈ (pathEncryptWrite lib data st).2 → rs = [e])
    ∧ pathEncryptWrite lib data st
        = pathEncryptWrite { lib with readArmoredKeyRing := fun _ => .ok [e] } data st := by
  unfold pathEncryptWrite
  dsimp only
  rw [h]
  repeat' split
  all_goals simp_all

set_option maxHeartbeats 1600000 in
/-- C3: encrypt/decrypt round trip — for every valid plaintext `P` (a byte
list) sent base64-encoded to a fault-free handler whose recipient keyring
parses to the key `R`, the call succeeds and decrypting the returned
ciphertext (in either output format) with `R`'s private key yields exactly
`P`. -/
theorem encrypt_decrypt_roundtrip (P : List Nat) (hP : ∀ b ∈ P, b < 256)
    (R S : Entity) (f nm rk : String)
    (hf : f = "base64" ∨ f = "ascii-armor") (hrk : rk ≠ "")
    (st : Storage) (entry : KeyEntry)
    (hst : storageGetFn st ("keys/" ++ nm) = some entry) :
    ∃ c evs,
      pathEncryptWrite (happyLib R S)
          ⟨some nm, some (String.mk (b64EncodeList P)), none, none, some f, some rk⟩ st
        = (.respData c, evs)
      ∧ decryptOperation R f c = some P := by
  have hpt : base64DecodeString
      (getPlaintext ⟨some nm, some (String.mk (b64EncodeList P)), none, none,
        some f, some rk⟩) = some P := base64DecodeString_encode P hP
  have hmsg := pgpEncryptBytes_lt R S .SHA256 P hP
  rcases hf with rfl | rfl
  · refine ⟨String.mk (b64EncodeList (pgpEncryptBytes R S .SHA256 P)),
      [.parseRecipient, .storageGet ("keys/" ++ nm), .encryptCalled [R] S,
        .writePlaintext, .closeCryptoWriter, .closeEncoder, .readBuffer], ?_, ?_⟩
    · unfold pathEncryptWrite
      rw [hpt]
      dsimp only
      simp only [resolveAlgorithm, getUrlalgorithm, getAlgorithm, getFormat,
        getRecipientKey, getName, Option.getD_none, Option.getD_some, happyLib,
        if_true, true_or, or_true, eq_self_iff_true]
      rw [show hashOfAlgorithm "sha2-256" = some CryptoHash.SHA256 from rfl]
      dsimp only
      rw [if_neg hrk, hst]
      dsimp only
      rw [if_neg (show ¬("base64" : String) = "ascii-armor" from by decide)]
    · unfold decryptOperation
      rw [if_neg (by decide), base64DecodeString_encode _ hmsg]
      exact pgp_roundtrip R S .SHA256 P
  · refine ⟨String.mk (armorEncodeChars (pgpEncryptBytes R S .SHA256 P)),
      [.parseRecipient, .storageGet ("keys/" ++ nm), .encryptCalled [R] S,
        .writePlaintext, .closeCryptoWriter, .closeEncoder, .readBuffer], ?_, ?_⟩
    · unfold pathEncryptWrite
      rw [hpt]
      dsimp only
      simp only [resolveAlgorithm, getUrlalgorithm, getAlgorithm, getFormat,
        getRecipientKey, getName, Option.getD_none, Option.getD_some, happyLib,
        if_true, true_or, or_true, eq_self_iff_true]
      rw [show hashOfAlgorithm "sha2-256" = some CryptoHash.SHA256 from rfl]
      dsimp only
      rw [if_neg hrk, hst]
    · unfold decryptOperation
      rw [if_pos rfl]
      rw [show (String.mk (armorEncodeChars (pgpEncryptBytes R S .SHA256 P))).toList
          = armorEncodeChars (pgpEncryptBytes R S .SHA256 P) from rfl]
      rw [armor_decode_encode _ hmsg]
      exact pgp_roundtrip R S .SHA256 P

/-- C3 witness: the plaintext `hi` encrypted for key id 1 round-trips
through the base64-format pipeline. -/
theorem encrypt_decrypt_roundtrip_witness :
    ∃ c evs,
      pathEncryptWrite (happyLib ⟨1⟩ ⟨2⟩)
          ⟨some "k", some (String.mk (b64EncodeList [104, 105])), none, none,
            some "base64", some "RECIPIENT"⟩ stOne
        = (.respData c, evs)
      ∧ decryptOperation ⟨1⟩ "base64" c = some [104, 105] :=
  encrypt_decrypt_roundtrip [104, 105] (by decide) ⟨1⟩ ⟨2⟩ "base64" "k" "RECIPIENT"
    (Or.inl rfl) (by decide) stOne ⟨"KEYMATERIAL"⟩ (by decide)

/-- C8: every successful Encrypt with `format=ascii-armor` returns a
ciphertext string that begins with the `-----BEGIN PGP MESSAGE-----` header
line and ends with the matching `-----END PGP MESSAGE-----` footer line. -/
theorem armor_output_framing (lib : Collab) (data : RawFields) (st : Storage)
    (c : String) (evs : List Ev)
    (hf : getFormat data = "ascii-armor")
    (h : pathEncryptWrite lib data st = (.respData c, evs)) :
    (∃ t, c.toList = "-----BEGIN PGP MESSAGE-----".toList ++ t)
    ∧ (∃ t, c.toList = t ++ "-----END PGP MESSAGE-----\n".toList) := by
  unfold pathEncryptWrite at h
  rw [hf] at h
  repeat' split at h
  all_goals injection h with h1 h2
  all_goals try exact GoResult.noConfusion h1
  all_goals injection h1 with h1
  all_goals subst h1
  all_goals try exact armorEncodeChars_framing _
  all_goals exact absurd rfl (by assumption)

set_option maxRecDepth 4000 in
/-- C8 witness: the armored ciphertext of a concrete successful request
carries the PGP MESSAGE header and footer. -/
theorem armor_output_framing_witness :
    (∃ t, armorCiphertext.toList = "-----BEGIN PGP MESSAGE-----".toList ++ t)
    ∧ (∃ t, armorCiphertext.toList = t ++ "-----END PGP MESSAGE-----\n".toList) :=
  armor_output_framing (happyLib ⟨1⟩ ⟨2⟩) dataArmor stOne armorCiphertext
    [.parseRecipient, .storageGet "keys/k", .encryptCalled [⟨1⟩] ⟨2⟩, .writePlaintext,
      .closeCryptoWriter, .closeEncoder, .readBuffer] rfl (by decide)

/-- C9 witness: the two handler variants agree on a concrete request. -/
theorem dead_err_check_removal_witness :
    pathEncryptWrite (happyLib ⟨1⟩ ⟨2⟩) dataB64 stOne
      = pathEncryptWriteNoDeadCheck (happyLib ⟨1⟩ ⟨2⟩) dataB64 stOne :=
  dead_err_check_removal_preserves_behavior (happyLib ⟨1⟩ ⟨2⟩) dataB64 stOne

/-- C10 witness: a concrete successful call reads only `keys/k` and leaves
the stored records unchanged. -/
theorem encrypt_storage_frame_witness :
    ((pathEncryptWrite (happyLib ⟨1⟩ ⟨2⟩) dataB64 stOne).2.filter isStorageB = []
      ∨ (pathEncryptWrite (happyLib ⟨1⟩ ⟨2⟩) dataB64 stOne).2.filter isStorageB
          = [Ev.storageGet ("keys/" ++ getName dataB64)])
    ∧ applyEvList (pathEncryptWrite (happyLib ⟨1⟩ ⟨2⟩) dataB64 stOne).2 stOne = stOne :=
  encrypt_storage_frame (happyLib ⟨1⟩ ⟨2⟩) dataB64 stOne

/-- C2 witness: when the encoder `Close` fails, the otherwise fault-free
request does not produce a ciphertext response. -/
theorem encrypt_close_order_and_errors_witness :
    (pathEncryptWrite closeEncFailsLib dataB64 stOne).1 ≠ .respData "" :=
  (encrypt_close_order_and_errors closeEncFailsLib dataB64 stOne).2
    (Or.inr (by decide)) ""

/-- C5 witness: a keyring parsing to two entities behaves identically to one
holding only its first entity. -/
theorem first_entity_sole_recipient_witness :
    pathEncryptWrite { happyLib ⟨1⟩ ⟨2⟩ with
        readArmoredKeyRing := fun _ => .ok [⟨1⟩, ⟨3⟩] } dataB64 stOne
      = pathEncryptWrite { { happyLib ⟨1⟩ ⟨2⟩ with
          readArmoredKeyRing := fun _ => .ok [⟨1⟩, ⟨3⟩] } with
          readArmoredKeyRing := fun _ => .ok [⟨1⟩] } dataB64 stOne :=
  (first_entity_sole_recipient _ dataB64 stOne ⟨1⟩ [⟨3⟩] rfl).2

end VaultGpg
